import Mathlib

/-!
Shallow embedding of the VITravels Ride Inventory & Booking Consistency
Engine: the `MemStorage` class of `server/storage.ts`, the Zod schemas of
`shared/schema.ts`, and the Express route handlers of `server/routes.ts`.

Conventions of the embedding:
* `randomUUID()` is modelled by a fresh-id counter `nextId` shared by all
  entity kinds (UUIDs never collide; the counter gives the same guarantee).
* `new Date().toISOString()` timestamps are modelled by a logical clock
  `now : Nat`, bumped each time the source stamps a date.
* JS numbers holding seat counts and prices are modelled as `Int`
  (the routes perform no rounding; the schemas require integers for seats).
* The ride field `from` is renamed `fromCity` and `to` is renamed `toCity`
  (`from` is a Lean keyword); all other field names follow the source.
* `Partial<Ride>` patches (the unvalidated `req.body` of the PATCH route)
  are modelled by `RidePatch`, covering the fields the engine reads or the
  routes ever send: the two seat counters, the price, the status and the
  two location strings.
* HTTP error responses are mapped to the error taxonomy used by the spec:
  404 ↦ `NotFound`, 403 ↦ `Forbidden`, Zod failure ↦ `InvalidInput`,
  400 "Cannot book your own ride" / "fully booked" / "already cancelled"
  ↦ `InvalidOperation`, 400 "Not enough seats available" ↦
  `InsufficientCapacity`.
* `status: z.enum(["OPEN", "FULL"])` is the ride schema, but the PATCH
  route stores `req.body` unvalidated, so the runtime status value can be
  the string "CANCELLED" as well; `RideStatus` therefore has three
  constructors.
-/

inductive RideStatus where
  | OPEN
  | FULL
  | CANCELLED
deriving DecidableEq

inductive BookingStatus where
  | BOOKED
  | CANCELLED
deriving DecidableEq

inductive VehicleType where
  | car
  | bike
  | auto
  | bus
deriving DecidableEq

/-- The `Ride` record of `shared/schema.ts` (`from`/`to` renamed). -/
structure Ride where
  id : Nat
  creatorId : Nat
  fromCity : String
  toCity : String
  date : String
  time : String
  vehicleType : VehicleType
  availableSeats : Int
  totalSeats : Int
  pricePerHead : Int
  whatsappLink : String
  additionalMsg : String
  status : RideStatus
  createdAt : Nat
deriving DecidableEq

/-- The `Booking` record of `shared/schema.ts`. -/
structure Booking where
  id : Nat
  rideId : Nat
  userId : Nat
  seatsBooked : Int
  status : BookingStatus
  totalPrice : Int
  bookedAt : Nat
  cancelledAt : Option Nat
deriving DecidableEq

/-- The `User` record of `shared/schema.ts`. -/
structure User where
  id : Nat
  name : String
  email : String
  avatar : Option String
  createdAt : Nat
deriving DecidableEq

/-- The `InsertRide` payload (`insertRideSchema`): note it carries only
`availableSeats`; `createRide` copies it into both seat counters. -/
structure InsertRide where
  fromCity : String
  toCity : String
  date : String
  time : String
  vehicleType : VehicleType
  availableSeats : Int
  pricePerHead : Int
  whatsappLink : String
  additionalMsg : String
deriving DecidableEq

/-- The `InsertBooking` payload (`insertBookingSchema`). -/
structure InsertBooking where
  rideId : Nat
  seatsBooked : Int
deriving DecidableEq

/-- `Partial<Ride>` as sent by the routes (see file header). -/
structure RidePatch where
  fromCity : Option String
  toCity : Option String
  availableSeats : Option Int
  totalSeats : Option Int
  pricePerHead : Option Int
  status : Option RideStatus
deriving DecidableEq

/-- The spread `{ ...ride, ...updates }` of `updateRide`. -/
def applyPatch (r : Ride) (p : RidePatch) : Ride :=
  { r with
    fromCity := p.fromCity.getD r.fromCity
    toCity := p.toCity.getD r.toCity
    availableSeats := p.availableSeats.getD r.availableSeats
    totalSeats := p.totalSeats.getD r.totalSeats
    pricePerHead := p.pricePerHead.getD r.pricePerHead
    status := p.status.getD r.status }

/-- A patch that only sets `availableSeats` (what the booking routes send). -/
def seatPatch (n : Int) : RidePatch :=
  { fromCity := none, toCity := none, availableSeats := some n,
    totalSeats := none, pricePerHead := none, status := none }

/-- A patch that only sets `status` (a manual status edit by the creator). -/
def statusPatch (st : RideStatus) : RidePatch :=
  { fromCity := none, toCity := none, availableSeats := none,
    totalSeats := none, pricePerHead := none, status := some st }

/-- `Map.set` on a list keyed by `id`: replace the keyed entry if present,
append otherwise. -/
def setKeyed (key : α → Nat) (l : List α) (id : Nat) (a : α) : List α :=
  if l.any (fun x => key x == id) then l.map (fun x => if key x == id then a else x)
  else l ++ [a]

/-- The `MemStorage` state: the three `Map`s plus the id and clock models. -/
structure MemStorage where
  users : List User
  rides : List Ride
  bookings : List Booking
  nextId : Nat
  now : Nat
deriving DecidableEq

namespace MemStorage

/-- `storage.getRide` (`this.rides.get(id)`). -/
def getRide (s : MemStorage) (id : Nat) : Option Ride :=
  s.rides.find? (fun r => r.id == id)

/-- `storage.getBooking` (`this.bookings.get(id)`). -/
def getBooking (s : MemStorage) (id : Nat) : Option Booking :=
  s.bookings.find? (fun b => b.id == id)

/-- `storage.createRide`: fresh id, both seat counters set from the input's
`availableSeats`, status OPEN. -/
def createRide (s : MemStorage) (insertRide : InsertRide) (creatorId : Nat) :
    Ride × MemStorage :=
  let id := s.nextId
  let ride : Ride :=
    { id := id
      creatorId := creatorId
      fromCity := insertRide.fromCity
      toCity := insertRide.toCity
      date := insertRide.date
      time := insertRide.time
      vehicleType := insertRide.vehicleType
      availableSeats := insertRide.availableSeats
      totalSeats := insertRide.availableSeats
      pricePerHead := insertRide.pricePerHead
      whatsappLink := insertRide.whatsappLink
      additionalMsg := insertRide.additionalMsg
      status := RideStatus.OPEN
      createdAt := s.now }
  (ride, { s with rides := setKeyed Ride.id s.rides id ride,
                  nextId := id + 1, now := s.now + 1 })

/-- `storage.updateRide`: merge the patch; when `autoUpdateStatus` is set and
the patch touches `availableSeats`, re-derive the status (`<= 0` forces FULL;
a previous FULL with seats restored above 0 reopens). -/
def updateRide (s : MemStorage) (id : Nat) (updates : RidePatch)
    (autoUpdateStatus : Bool) : Option Ride × MemStorage :=
  match s.getRide id with
  | none => (none, s)
  | some ride =>
    let merged := applyPatch ride updates
    let updatedRide :=
      if autoUpdateStatus = true ∧ updates.availableSeats ≠ none then
        if merged.availableSeats ≤ 0 then
          { merged with status := RideStatus.FULL }
        else if ride.status = RideStatus.FULL ∧ 0 < merged.availableSeats then
          { merged with status := RideStatus.OPEN }
        else merged
      else merged
    (some updatedRide, { s with rides := setKeyed Ride.id s.rides id updatedRide })

/-- `storage.deleteRide` (`this.rides.delete(id)`). -/
def deleteRide (s : MemStorage) (id : Nat) : Bool × MemStorage :=
  (s.rides.any (fun r => r.id == id),
   { s with rides := s.rides.filter (fun r => ¬ r.id == id) })

/-- `storage.createBooking`: fresh id, price snapshot
`totalPrice = seatsBooked * pricePerHead`, status BOOKED. -/
def createBooking (s : MemStorage) (insertBooking : InsertBooking)
    (userId : Nat) (pricePerHead : Int) : Booking × MemStorage :=
  let id := s.nextId
  let booking : Booking :=
    { id := id
      rideId := insertBooking.rideId
      userId := userId
      seatsBooked := insertBooking.seatsBooked
      status := BookingStatus.BOOKED
      totalPrice := insertBooking.seatsBooked * pricePerHead
      bookedAt := s.now
      cancelledAt := none }
  (booking, { s with bookings := setKeyed Booking.id s.bookings id booking,
                     nextId := id + 1, now := s.now + 1 })

/-- `storage.cancelBooking`: set status CANCELLED and stamp `cancelledAt`;
all other booking fields are spread through unchanged. -/
def cancelBooking (s : MemStorage) (id : Nat) : Option Booking × MemStorage :=
  match s.getBooking id with
  | none => (none, s)
  | some booking =>
    let cancelledBooking : Booking :=
      { booking with status := BookingStatus.CANCELLED, cancelledAt := some s.now }
    (some cancelledBooking,
     { s with bookings := setKeyed Booking.id s.bookings id cancelledBooking,
              now := s.now + 1 })

end MemStorage

/-- The engine-facing error taxonomy (see the header for the mapping from
HTTP responses). -/
inductive ApiError where
  | NotFound
  | Forbidden
  | InvalidOperation
  | InsufficientCapacity
  | InvalidInput
deriving DecidableEq

/-- `insertRideSchema` of `shared/schema.ts`: the Zod checks on the fields
the engine stores. -/
def insertRideValid (i : InsertRide) : Prop :=
  2 ≤ i.fromCity.length ∧ 2 ≤ i.toCity.length ∧ 1 ≤ i.date.length ∧
  1 ≤ i.time.length ∧ 1 ≤ i.availableSeats ∧ 0 ≤ i.pricePerHead ∧
  1 ≤ i.whatsappLink.length

instance (i : InsertRide) : Decidable (insertRideValid i) := by
  unfold insertRideValid; infer_instance

/-- `POST /api/rides`: validate with `insertRideSchema`, then create. -/
def postRides (s : MemStorage) (userId : Nat) (input : InsertRide) :
    Except ApiError Ride × MemStorage :=
  if insertRideValid input then
    let res := s.createRide input userId
    (Except.ok res.1, res.2)
  else (Except.error ApiError.InvalidInput, s)

/-- `PATCH /api/rides/:id`: ownership check, then `updateRide` with
`autoUpdateStatus = false` and the raw, unvalidated body as the patch. -/
def patchRides (s : MemStorage) (userId : Nat) (rideId : Nat)
    (body : RidePatch) : Except ApiError Ride × MemStorage :=
  match s.getRide rideId with
  | none => (Except.error ApiError.NotFound, s)
  | some ride =>
    if ride.creatorId ≠ userId then (Except.error ApiError.Forbidden, s)
    else
      let res := s.updateRide rideId body false
      match res.1 with
      | some updated => (Except.ok updated, res.2)
      | none => (Except.error ApiError.NotFound, res.2)

/-- `DELETE /api/rides/:id`: ownership check, then hard delete. -/
def deleteRides (s : MemStorage) (userId : Nat) (rideId : Nat) :
    Except ApiError Unit × MemStorage :=
  match s.getRide rideId with
  | none => (Except.error ApiError.NotFound, s)
  | some ride =>
    if ride.creatorId ≠ userId then (Except.error ApiError.Forbidden, s)
    else
      let res := s.deleteRide rideId
      (Except.ok (), res.2)

/-- `POST /api/bookings`: validation, then the handler's check sequence in
source order — ride lookup, self-booking check, capacity check
(`availableSeats < seatsBooked`), then the status check (`status === "FULL"`)
— followed by `createBooking` and the seat-decrement `updateRide` (which uses
the default `autoUpdateStatus = true`). -/
def postBookings (s : MemStorage) (userId : Nat) (rideId : Nat)
    (seatsBooked : Int) : Except ApiError Booking × MemStorage :=
  if seatsBooked < 1 then (Except.error ApiError.InvalidInput, s)
  else
    match s.getRide rideId with
    | none => (Except.error ApiError.NotFound, s)
    | some ride =>
      if ride.creatorId = userId then (Except.error ApiError.InvalidOperation, s)
      else if ride.availableSeats < seatsBooked then
        (Except.error ApiError.InsufficientCapacity, s)
      else if ride.status = RideStatus.FULL then
        (Except.error ApiError.InvalidOperation, s)
      else
        let res := s.createBooking { rideId := rideId, seatsBooked := seatsBooked }
          userId ride.pricePerHead
        let s2 :=
          (res.2.updateRide rideId (seatPatch (ride.availableSeats - seatsBooked)) true).2
        (Except.ok res.1, s2)

/-- `DELETE /api/bookings/:id`: booking lookup, ownership check,
double-cancel guard, then `cancelBooking` and — only if the ride still
exists — the seat-restoration `updateRide` (default `autoUpdateStatus`). -/
def deleteBookings (s : MemStorage) (userId : Nat) (bookingId : Nat) :
    Except ApiError Booking × MemStorage :=
  match s.getBooking bookingId with
  | none => (Except.error ApiError.NotFound, s)
  | some booking =>
    if booking.userId ≠ userId then (Except.error ApiError.Forbidden, s)
    else if booking.status = BookingStatus.CANCELLED then
      (Except.error ApiError.InvalidOperation, s)
    else
      let res := s.cancelBooking bookingId
      match res.2.getRide booking.rideId with
      | none => (Except.ok (res.1.getD booking), res.2)
      | some ride =>
        let s2 := (res.2.updateRide booking.rideId
          (seatPatch (ride.availableSeats + booking.seatsBooked)) true).2
        (Except.ok (res.1.getD booking), s2)

/-- The public operations of the engine, at route granularity. -/
inductive Op where
  | createRide (userId : Nat) (input : InsertRide)
  | updateRide (userId : Nat) (rideId : Nat) (patch : RidePatch)
  | deleteRide (userId : Nat) (rideId : Nat)
  | createBooking (userId : Nat) (rideId : Nat) (seatsBooked : Int)
  | cancelBooking (userId : Nat) (bookingId : Nat)
deriving DecidableEq

/-- The state transition of one route invocation (responses discarded). -/
def step (s : MemStorage) : Op → MemStorage
  | Op.createRide u i => (postRides s u i).2
  | Op.updateRide u r p => (patchRides s u r p).2
  | Op.deleteRide u r => (deleteRides s u r).2
  | Op.createBooking u r n => (postBookings s u r n).2
  | Op.cancelBooking u b => (deleteBookings s u b).2

/-- A sequence of route invocations. -/
def run (s : MemStorage) (ops : List Op) : MemStorage :=
  ops.foldl step s

/-- The empty server state (fresh `MemStorage`). -/
def initStorage : MemStorage :=
  { users := [], rides := [], bookings := [], nextId := 0, now := 0 }

/-! ### Invariant definitions -/

/-- The entries of a `Map` model have pairwise-distinct keys. -/
def keyedDistinct (key : α → Nat) (l : List α) : Prop :=
  l.Pairwise (fun a b => key a ≠ key b)

/-- Sum of `seatsBooked` over the currently-BOOKED bookings of one ride. -/
def bookedSeats (bookings : List Booking) (rideId : Nat) : Int :=
  ((bookings.filter fun b => b.rideId == rideId && b.status == BookingStatus.BOOKED).map
    Booking.seatsBooked).sum

/-- The inductive invariant of the storage state: well-formed maps, fresh-id
bounds, positive booking sizes, and the seat-consistency equations. -/
structure StoreInv (s : MemStorage) : Prop where
  ridesDistinct : keyedDistinct Ride.id s.rides
  bookingsDistinct : keyedDistinct Booking.id s.bookings
  rideIdLt : ∀ r ∈ s.rides, r.id < s.nextId
  bookingIdLt : ∀ b ∈ s.bookings, b.id < s.nextId
  bookingRideIdLt : ∀ b ∈ s.bookings, b.rideId < s.nextId
  bookingSeatsPos : ∀ b ∈ s.bookings, 1 ≤ b.seatsBooked
  seatsLower : ∀ r ∈ s.rides, 0 ≤ r.availableSeats
  seatsUpper : ∀ r ∈ s.rides, r.availableSeats ≤ r.totalSeats
  seatsEq : ∀ r ∈ s.rides, r.totalSeats - r.availableSeats = bookedSeats s.bookings r.id

/-- Operations whose ride patch does not write the seat counters directly.
All operations other than `updateRide` qualify; an `updateRide` qualifies
when its (unvalidated) body leaves `availableSeats` and `totalSeats` alone. -/
def seatSafe : Op → Prop
  | Op.updateRide _ _ p => p.availableSeats = none ∧ p.totalSeats = none
  | _ => True

instance : DecidablePred seatSafe := by
  intro op
  cases op <;> (unfold seatSafe; infer_instance)

/-! ### List helper lemmas -/

lemma map_replace_id (key : α → Nat) (l : List α) (id : Nat) (a : α)
    (h : ∀ x ∈ l, key x ≠ id) :
    (l.map fun x => if key x == id then a else x) = l := by
  induction l with
  | nil => rfl
  | cons hd tl ih =>
    have hhd : ¬ (key hd == id) = true := by
      simp [h hd (List.mem_cons_self hd tl)]
    simp only [List.map_cons, if_neg hhd, List.cons.injEq, true_and]
    exact ih fun x hx => h x (List.mem_cons_of_mem _ hx)

lemma setKeyed_of_not_mem (key : α → Nat) (l : List α) (id : Nat) (a : α)
    (h : ∀ x ∈ l, key x ≠ id) :
    setKeyed key l id a = l ++ [a] := by
  have hc : ¬ (l.any (fun x => key x == id)) = true := by
    rw [List.any_eq_true]
    rintro ⟨x, hx, hpx⟩
    exact h x hx (by simpa using hpx)
  unfold setKeyed
  rw [if_neg hc]

lemma setKeyed_of_mem (key : α → Nat) (l : List α) (id : Nat) (a : α)
    (x : α) (hx : x ∈ l) (hkey : key x = id) :
    setKeyed key l id a = l.map fun y => if key y == id then a else y := by
  unfold setKeyed
  rw [if_pos]
  rw [List.any_eq_true]
  exact ⟨x, hx, by simp [hkey]⟩

lemma keyedDistinct_map_replace (key : α → Nat) (l : List α) (id : Nat) (a : α)
    (ha : key a = id) (h : keyedDistinct key l) :
    keyedDistinct key (l.map fun x => if key x == id then a else x) := by
  have hkey : ∀ x, key (if key x == id then a else x) = key x := by
    intro x
    by_cases hx : key x = id
    · simp [hx, ha]
    · simp [hx]
  exact h.map _ fun x y hxy => by rw [hkey, hkey]; exact hxy

lemma mem_map_replace (key : α → Nat) (l : List α) (id : Nat) (a : α)
    (y : α) (hy : y ∈ l.map fun x => if key x == id then a else x) :
    (y = a ∧ ∃ x ∈ l, key x = id) ∨ (y ∈ l ∧ key y ≠ id) := by
  obtain ⟨x, hx, rfl⟩ := List.mem_map.1 hy
  by_cases hk : key x = id
  · left
    exact ⟨by simp [hk], x, hx, hk⟩
  · right
    simpa [hk] using hx

lemma eq_of_keyedDistinct_find? (key : α → Nat) {l : List α} {id : Nat} {a x : α}
    (hdist : keyedDistinct key l)
    (hfind : l.find? (fun y => key y == id) = some a)
    (hx : x ∈ l) (hkey : key x = id) : x = a := by
  induction l with
  | nil => simp at hfind
  | cons hd tl ih =>
    by_cases hhd : key hd = id
    · rw [List.find?_cons_of_pos _ (by simp [hhd])] at hfind
      have ha : hd = a := by injection hfind
      rcases List.mem_cons.1 hx with rfl | hx'
      · exact ha
      · have hne := (List.pairwise_cons.1 hdist).1 x hx'
        exact absurd (hhd.trans hkey.symm) hne
    · rw [List.find?_cons_of_neg _ (by simp [hhd])] at hfind
      rcases List.mem_cons.1 hx with rfl | hx'
      · exact absurd hkey hhd
      · exact ih (List.pairwise_cons.1 hdist).2 hfind hx'

lemma bookedSeats_nil (rid : Nat) : bookedSeats [] rid = 0 := rfl

lemma bookedSeats_cons (b : Booking) (l : List Booking) (rid : Nat) :
    bookedSeats (b :: l) rid =
      (if b.rideId = rid ∧ b.status = BookingStatus.BOOKED then b.seatsBooked else 0)
        + bookedSeats l rid := by
  by_cases h1 : b.rideId = rid
  · by_cases h2 : b.status = BookingStatus.BOOKED
    · simp [bookedSeats, List.filter_cons, h1, h2]
    · simp [bookedSeats, List.filter_cons, h1, h2]
  · simp [bookedSeats, List.filter_cons, h1]

lemma bookedSeats_append (l1 l2 : List Booking) (rid : Nat) :
    bookedSeats (l1 ++ l2) rid = bookedSeats l1 rid + bookedSeats l2 rid := by
  simp [bookedSeats, List.filter_append]

lemma bookedSeats_singleton (b : Booking) (rid : Nat) :
    bookedSeats [b] rid =
      (if b.rideId = rid ∧ b.status = BookingStatus.BOOKED then b.seatsBooked else 0) := by
  rw [bookedSeats_cons, bookedSeats_nil, add_zero]

lemma bookedSeats_eq_zero (l : List Booking) (rid : Nat)
    (h : ∀ b ∈ l, b.rideId ≠ rid) : bookedSeats l rid = 0 := by
  induction l with
  | nil => rfl
  | cons hd tl ih =>
    rw [bookedSeats_cons, ih fun b hb => h b (List.mem_cons_of_mem _ hb)]
    simp [h hd (List.mem_cons_self hd tl)]

lemma bookedSeats_nonneg (l : List Booking) (rid : Nat)
    (h : ∀ b ∈ l, 1 ≤ b.seatsBooked) : 0 ≤ bookedSeats l rid := by
  induction l with
  | nil => exact le_refl 0
  | cons hd tl ih =>
    rw [bookedSeats_cons]
    have h1 : 0 ≤ bookedSeats tl rid := ih fun b hb => h b (List.mem_cons_of_mem _ hb)
    have h2 : (0:Int) ≤ if hd.rideId = rid ∧ hd.status = BookingStatus.BOOKED
        then hd.seatsBooked else 0 := by
      split
      · exact le_trans zero_le_one (h hd (List.mem_cons_self hd tl))
      · exact le_refl 0
    exact add_nonneg h2 h1

lemma seatsBooked_le_bookedSeats (l : List Booking) (rid : Nat) (b : Booking)
    (hmem : b ∈ l) (hstat : b.status = BookingStatus.BOOKED) (hrid : b.rideId = rid)
    (hpos : ∀ x ∈ l, 1 ≤ x.seatsBooked) : b.seatsBooked ≤ bookedSeats l rid := by
  induction l with
  | nil => simp at hmem
  | cons hd tl ih =>
    rw [bookedSeats_cons]
    rcases List.mem_cons.1 hmem with rfl | hmem'
    · rw [if_pos ⟨hrid, hstat⟩]
      have := bookedSeats_nonneg tl rid fun x hx => hpos x (List.mem_cons_of_mem _ hx)
      linarith
    · have h1 := ih hmem' fun x hx => hpos x (List.mem_cons_of_mem _ hx)
      have h2 : (0:Int) ≤ if hd.rideId = rid ∧ hd.status = BookingStatus.BOOKED
          then hd.seatsBooked else 0 := by
        split
        · exact le_trans zero_le_one (hpos hd (List.mem_cons_self hd tl))
        · exact le_refl 0
      linarith

lemma bookedSeats_replace_cancel (l : List Booking) (bid : Nat) (cb b : Booking)
    (hdist : keyedDistinct Booking.id l)
    (hmem : b ∈ l) (hbid : b.id = bid) (hbook : b.status = BookingStatus.BOOKED)
    (hcb : cb.status = BookingStatus.CANCELLED) (rid : Nat) :
    bookedSeats (l.map fun x => if x.id == bid then cb else x) rid
      = bookedSeats l rid - (if b.rideId = rid then b.seatsBooked else 0) := by
  induction l with
  | nil => simp at hmem
  | cons hd tl ih =>
    have hdist' := (List.pairwise_cons.1 hdist).2
    rcases List.mem_cons.1 hmem with rfl | hmem'
    · have htl : ∀ x ∈ tl, x.id ≠ bid := by
        intro x hx
        exact fun hc => (List.pairwise_cons.1 hdist).1 x hx (hbid.trans hc.symm)
      rw [List.map_cons, if_pos (by simp [hbid]), map_replace_id Booking.id tl bid cb htl,
        bookedSeats_cons, bookedSeats_cons]
      have hcbz : (if cb.rideId = rid ∧ cb.status = BookingStatus.BOOKED
          then cb.seatsBooked else (0:Int)) = 0 := by
        rw [if_neg]
        rintro ⟨-, hc⟩
        rw [hcb] at hc
        exact BookingStatus.noConfusion hc
      rw [hcbz]
      by_cases hr : b.rideId = rid
      · rw [if_pos ⟨hr, hbook⟩, if_pos hr]; ring
      · rw [if_neg (fun hc => hr hc.1), if_neg hr]; ring
    · have hhd : ¬ (hd.id == bid) = true := by
        simp only [beq_iff_eq]
        intro hc
        exact (List.pairwise_cons.1 hdist).1 b hmem' (hc.trans hbid.symm)
      rw [List.map_cons, if_neg hhd, bookedSeats_cons, bookedSeats_cons,
        ih hdist' hmem']
      ring

lemma find?_map_replace (key : α → Nat) (l : List α) (id : Nat) (a : α)
    (ha : key a = id) :
    (l.map fun x => if key x == id then a else x).find? (fun x => key x == id)
      = (l.find? (fun x => key x == id)).map (fun _ => a) := by
  induction l with
  | nil => rfl
  | cons hd tl ih =>
    by_cases hhd : key hd = id
    · rw [List.map_cons, if_pos (by simp [hhd]),
        List.find?_cons_of_pos _ (by simp [ha]),
        List.find?_cons_of_pos _ (by simp [hhd])]
      rfl
    · rw [List.map_cons, if_neg (by simp [hhd]),
        List.find?_cons_of_neg _ (by simp [hhd]),
        List.find?_cons_of_neg _ (by simp [hhd]), ih]

lemma find?_map_replace_ne (key : α → Nat) (l : List α) (id : Nat) (a : α)
    (ha : key a = id) (id' : Nat) (hne : id' ≠ id) :
    (l.map fun x => if key x == id then a else x).find? (fun x => key x == id')
      = l.find? (fun x => key x == id') := by
  induction l with
  | nil => rfl
  | cons hd tl ih =>
    rw [List.map_cons]
    by_cases hhd : key hd = id
    · rw [if_pos (by simp [hhd])]
      have hc1 : (key a == id') = false := by
        simp only [beq_eq_false_iff_ne, ne_eq, ha]
        exact Ne.symm hne
      have hc2 : (key hd == id') = false := by
        simp only [beq_eq_false_iff_ne, ne_eq, hhd]
        exact Ne.symm hne
      rw [List.find?_cons, List.find?_cons, hc1, hc2]
      exact ih
    · rw [if_neg (by simp [hhd]), List.find?_cons, List.find?_cons]
      cases hc : (key hd == id') with
      | true => rfl
      | false => exact ih

lemma find?_setKeyed_self (key : α → Nat) (l : List α) (id : Nat) (a : α)
    (ha : key a = id) :
    (setKeyed key l id a).find? (fun x => key x == id) = some a := by
  unfold setKeyed
  by_cases hany : l.any (fun x => key x == id) = true
  · rw [if_pos hany, find?_map_replace key l id a ha]
    rw [List.any_eq_true] at hany
    obtain ⟨x, hx, hpx⟩ := hany
    have hsome : (l.find? (fun x => key x == id)).isSome := by
      rw [List.find?_isSome]
      exact ⟨x, hx, hpx⟩
    obtain ⟨b, hb⟩ := Option.isSome_iff_exists.1 hsome
    rw [hb]
    rfl
  · rw [if_neg hany, List.find?_append]
    have hnone : l.find? (fun x => key x == id) = none := by
      rw [List.find?_eq_none]
      intro x hx hpx
      exact hany (List.any_eq_true.2 ⟨x, hx, hpx⟩)
    rw [hnone]
    simp [ha]

lemma find?_setKeyed_ne (key : α → Nat) (l : List α) (id : Nat) (a : α)
    (ha : key a = id) (id' : Nat) (hne : id' ≠ id) :
    (setKeyed key l id a).find? (fun x => key x == id')
      = l.find? (fun x => key x == id') := by
  unfold setKeyed
  by_cases hany : l.any (fun x => key x == id) = true
  · rw [if_pos hany, find?_map_replace_ne key l id a ha id' hne]
  · rw [if_neg hany, List.find?_append]
    have hasingle : List.find? (fun x => key x == id') [a] = none := by
      rw [List.find?_eq_none]
      intro x hx hpx
      rw [List.mem_singleton.1 hx] at hpx
      exact (Ne.symm hne) (by simpa [ha] using hpx)
    rw [hasingle, Option.or_none]

/-! ### Preservation of the inductive invariant -/

lemma StoreInv_postRides (s : MemStorage) (u : Nat) (i : InsertRide)
    (h : StoreInv s) : StoreInv (postRides s u i).2 := by
  by_cases hv : insertRideValid i
  · have hfresh : ∀ r ∈ s.rides, r.id ≠ s.nextId :=
      fun r hr => Nat.ne_of_lt (h.rideIdLt r hr)
    simp only [postRides, if_pos hv, MemStorage.createRide,
      setKeyed_of_not_mem Ride.id s.rides s.nextId _ hfresh]
    constructor
    · rw [keyedDistinct, List.pairwise_append]
      refine ⟨h.ridesDistinct, List.pairwise_singleton _ _, ?_⟩
      intro r hr r' hr'
      rw [List.mem_singleton.1 hr']
      exact hfresh r hr
    · exact h.bookingsDistinct
    · intro r hr
      rcases List.mem_append.1 hr with hr' | hr'
      · exact Nat.lt_succ_of_lt (h.rideIdLt r hr')
      · rw [List.mem_singleton.1 hr']
        exact Nat.lt_succ_self _
    · exact fun b hb => Nat.lt_succ_of_lt (h.bookingIdLt b hb)
    · exact fun b hb => Nat.lt_succ_of_lt (h.bookingRideIdLt b hb)
    · exact h.bookingSeatsPos
    · intro r hr
      rcases List.mem_append.1 hr with hr' | hr'
      · exact h.seatsLower r hr'
      · rw [List.mem_singleton.1 hr']
        have : 1 ≤ i.availableSeats := hv.2.2.2.2.1
        simpa using le_trans zero_le_one this
    · intro r hr
      rcases List.mem_append.1 hr with hr' | hr'
      · exact h.seatsUpper r hr'
      · rw [List.mem_singleton.1 hr']
    · intro r hr
      rcases List.mem_append.1 hr with hr' | hr'
      · exact h.seatsEq r hr'
      · rw [List.mem_singleton.1 hr']
        have hz : bookedSeats s.bookings s.nextId = 0 :=
          bookedSeats_eq_zero _ _ fun b hb => Nat.ne_of_lt (h.bookingRideIdLt b hb)
        simpa using hz.symm
  · simpa only [postRides, if_neg hv] using h

lemma StoreInv_deleteRides (s : MemStorage) (u rid : Nat)
    (h : StoreInv s) : StoreInv (deleteRides s u rid).2 := by
  unfold deleteRides
  cases hfind : s.getRide rid with
  | none => exact h
  | some ride =>
    by_cases hc : ride.creatorId ≠ u
    · simpa only [if_pos hc] using h
    · simp only [if_neg hc, MemStorage.deleteRide]
      have hsub : ∀ r ∈ s.rides.filter (fun r => ¬ r.id == rid), r ∈ s.rides :=
        fun r hr => (List.mem_filter.1 hr).1
      exact
        { ridesDistinct := h.ridesDistinct.filter _
          bookingsDistinct := h.bookingsDistinct
          rideIdLt := fun r hr => h.rideIdLt r (hsub r hr)
          bookingIdLt := h.bookingIdLt
          bookingRideIdLt := h.bookingRideIdLt
          bookingSeatsPos := h.bookingSeatsPos
          seatsLower := fun r hr => h.seatsLower r (hsub r hr)
          seatsUpper := fun r hr => h.seatsUpper r (hsub r hr)
          seatsEq := fun r hr => h.seatsEq r (hsub r hr) }

lemma StoreInv_patchRides (s : MemStorage) (u rid : Nat) (p : RidePatch)
    (hp : p.availableSeats = none ∧ p.totalSeats = none)
    (h : StoreInv s) : StoreInv (patchRides s u rid p).2 := by
  unfold patchRides
  cases hfind : s.getRide rid with
  | none => exact h
  | some ride =>
    by_cases hc : ride.creatorId ≠ u
    · simpa only [if_pos hc] using h
    · have hride_mem : ride ∈ s.rides := List.mem_of_find?_eq_some hfind
      have hride_id : ride.id = rid := by
        have := List.find?_some hfind
        simpa using this
      have hid : (applyPatch ride p).id = rid := by
        simpa [applyPatch] using hride_id
      have havail : (applyPatch ride p).availableSeats = ride.availableSeats := by
        simp [applyPatch, hp.1]
      have htotal : (applyPatch ride p).totalSeats = ride.totalSeats := by
        simp [applyPatch, hp.2]
      simp only [if_neg hc, MemStorage.updateRide, hfind, Bool.false_eq_true,
        false_and, if_neg, ite_false]
      rw [setKeyed_of_mem Ride.id s.rides rid (applyPatch ride p) ride hride_mem hride_id]
      refine ⟨?_, h.bookingsDistinct, ?_, h.bookingIdLt, h.bookingRideIdLt,
        h.bookingSeatsPos, ?_, ?_, ?_⟩
      · exact keyedDistinct_map_replace Ride.id s.rides rid _ hid h.ridesDistinct
      · intro y hy
        rcases mem_map_replace Ride.id s.rides rid _ y hy with ⟨rfl, -⟩ | ⟨hm, -⟩
        · rw [hid, ← hride_id]
          exact h.rideIdLt ride hride_mem
        · exact h.rideIdLt y hm
      · intro y hy
        rcases mem_map_replace Ride.id s.rides rid _ y hy with ⟨rfl, -⟩ | ⟨hm, -⟩
        · rw [havail]
          exact h.seatsLower ride hride_mem
        · exact h.seatsLower y hm
      · intro y hy
        rcases mem_map_replace Ride.id s.rides rid _ y hy with ⟨rfl, -⟩ | ⟨hm, -⟩
        · rw [havail, htotal]
          exact h.seatsUpper ride hride_mem
        · exact h.seatsUpper y hm
      · intro y hy
        rcases mem_map_replace Ride.id s.rides rid _ y hy with ⟨rfl, -⟩ | ⟨hm, -⟩
        · rw [havail, htotal, hid, ← hride_id]
          exact h.seatsEq ride hride_mem
        · exact h.seatsEq y hm

/-- The ride produced by `updateRide` when the patch sets exactly
`availableSeats := v` and `autoUpdateStatus` is on (proved below in
`updateRide_seatPatch`; this is a characterization, the definition of
record is `MemStorage.updateRide`). -/
def derivedRide (ride : Ride) (v : Int) : Ride :=
  if v ≤ 0 then { ride with availableSeats := v, status := RideStatus.FULL }
  else if ride.status = RideStatus.FULL then
    { ride with availableSeats := v, status := RideStatus.OPEN }
  else { ride with availableSeats := v }

lemma derivedRide_id (r : Ride) (v : Int) : (derivedRide r v).id = r.id := by
  unfold derivedRide
  split
  · rfl
  · split <;> rfl

lemma derivedRide_creatorId (r : Ride) (v : Int) :
    (derivedRide r v).creatorId = r.creatorId := by
  unfold derivedRide
  split
  · rfl
  · split <;> rfl

lemma derivedRide_availableSeats (r : Ride) (v : Int) :
    (derivedRide r v).availableSeats = v := by
  unfold derivedRide
  split
  · rfl
  · split <;> rfl

lemma derivedRide_totalSeats (r : Ride) (v : Int) :
    (derivedRide r v).totalSeats = r.totalSeats := by
  unfold derivedRide
  split
  · rfl
  · split <;> rfl

lemma derivedRide_pricePerHead (r : Ride) (v : Int) :
    (derivedRide r v).pricePerHead = r.pricePerHead := by
  unfold derivedRide
  split
  · rfl
  · split <;> rfl

lemma derivedRide_status (r : Ride) (v : Int) :
    (derivedRide r v).status =
      if v ≤ 0 then RideStatus.FULL
      else if r.status = RideStatus.FULL then RideStatus.OPEN
      else r.status := by
  unfold derivedRide
  split
  · rfl
  · split <;> rfl

/-- The ride record written back by `updateRide` once the target ride has
been found (the body of `updateRide` after the lookup). -/
def updateResult (ride : Ride) (updates : RidePatch) (autoUpdateStatus : Bool) : Ride :=
  let merged := applyPatch ride updates
  if autoUpdateStatus = true ∧ updates.availableSeats ≠ none then
    if merged.availableSeats ≤ 0 then
      { merged with status := RideStatus.FULL }
    else if ride.status = RideStatus.FULL ∧ 0 < merged.availableSeats then
      { merged with status := RideStatus.OPEN }
    else merged
  else merged

lemma updateRide_eq (s : MemStorage) (rid : Nat) (p : RidePatch) (auto : Bool)
    (ride : Ride) (hfind : s.getRide rid = some ride) :
    s.updateRide rid p auto
      = (some (updateResult ride p auto),
         { s with rides := setKeyed Ride.id s.rides rid (updateResult ride p auto) }) := by
  simp only [MemStorage.updateRide, hfind, updateResult]

lemma updateResult_seatPatch (ride : Ride) (v : Int) :
    updateResult ride (seatPatch v) true = derivedRide ride v := by
  have happ : applyPatch ride (seatPatch v) = { ride with availableSeats := v } := by
    simp [applyPatch, seatPatch]
  unfold updateResult derivedRide
  rw [if_pos (show true = true ∧ (seatPatch v).availableSeats ≠ none from
    ⟨rfl, by simp [seatPatch]⟩), happ]
  by_cases h1 : v ≤ 0
  · rw [if_pos (show ({ ride with availableSeats := v } : Ride).availableSeats ≤ 0 from h1),
      if_pos h1]
  · rw [if_neg (show ¬ ({ ride with availableSeats := v } : Ride).availableSeats ≤ 0 from h1),
      if_neg h1]
    by_cases h2 : ride.status = RideStatus.FULL
    · rw [if_pos (show ride.status = RideStatus.FULL ∧
          0 < ({ ride with availableSeats := v } : Ride).availableSeats from
          ⟨h2, not_le.1 h1⟩), if_pos h2]
    · rw [if_neg (show ¬ (ride.status = RideStatus.FULL ∧
          0 < ({ ride with availableSeats := v } : Ride).availableSeats) from
          fun hc => h2 hc.1), if_neg h2]

lemma updateRide_seatPatch (s : MemStorage) (rid : Nat) (v : Int) (ride : Ride)
    (hfind : s.getRide rid = some ride) :
    s.updateRide rid (seatPatch v) true
      = (some (derivedRide ride v),
         { s with rides := setKeyed Ride.id s.rides rid (derivedRide ride v) }) := by
  rw [updateRide_eq s rid (seatPatch v) true ride hfind, updateResult_seatPatch]

lemma StoreInv_postBookings (s : MemStorage) (u rid : Nat) (n : Int)
    (h : StoreInv s) : StoreInv (postBookings s u rid n).2 := by
  unfold postBookings
  by_cases hn : n < 1
  · simpa only [if_pos hn] using h
  · simp only [if_neg hn]
    cases hfind : s.getRide rid with
    | none => exact h
    | some ride =>
      by_cases hcr : ride.creatorId = u
      · simpa only [if_pos hcr] using h
      · simp only [if_neg hcr]
        by_cases hcap : ride.availableSeats < n
        · simpa only [if_pos hcap] using h
        · simp only [if_neg hcap]
          by_cases hst : ride.status = RideStatus.FULL
          · simpa only [if_pos hst] using h
          · simp only [if_neg hst]
            have hfreshB : ∀ b ∈ s.bookings, b.id ≠ s.nextId :=
              fun b hb => Nat.ne_of_lt (h.bookingIdLt b hb)
            have hride_mem : ride ∈ s.rides := List.mem_of_find?_eq_some hfind
            have hride_id : ride.id = rid := by simpa using List.find?_some hfind
            have hfind1 : ∀ (bk : List Booking) (ni nw : Nat),
                (MemStorage.mk s.users s.rides bk ni nw).getRide rid = some ride :=
              fun _ _ _ => hfind
            simp only [MemStorage.createBooking,
              setKeyed_of_not_mem Booking.id s.bookings s.nextId _ hfreshB]
            rw [updateRide_seatPatch _ rid (ride.availableSeats - n) ride (hfind1 _ _ _)]
            simp only
            rw [setKeyed_of_mem Ride.id s.rides rid
              (derivedRide ride (ride.availableSeats - n)) ride hride_mem hride_id]
            have hRid : (derivedRide ride (ride.availableSeats - n)).id = rid := by
              rw [derivedRide_id, hride_id]
            refine ⟨?_, ?_, ?_, ?_, ?_, ?_, ?_, ?_, ?_⟩
            · exact keyedDistinct_map_replace Ride.id s.rides rid _ hRid h.ridesDistinct
            · rw [keyedDistinct, List.pairwise_append]
              refine ⟨h.bookingsDistinct, List.pairwise_singleton _ _, ?_⟩
              intro b hb b' hb'
              rw [List.mem_singleton.1 hb']
              exact hfreshB b hb
            · intro y hy
              rcases mem_map_replace Ride.id s.rides rid _ y hy with ⟨rfl, -⟩ | ⟨hm, -⟩
              · rw [hRid, ← hride_id]
                exact Nat.lt_succ_of_lt (h.rideIdLt ride hride_mem)
              · exact Nat.lt_succ_of_lt (h.rideIdLt y hm)
            · intro b hb
              rcases List.mem_append.1 hb with hb' | hb'
              · exact Nat.lt_succ_of_lt (h.bookingIdLt b hb')
              · rw [List.mem_singleton.1 hb']
                exact Nat.lt_succ_self _
            · intro b hb
              rcases List.mem_append.1 hb with hb' | hb'
              · exact Nat.lt_succ_of_lt (h.bookingRideIdLt b hb')
              · rw [List.mem_singleton.1 hb']
                show rid < s.nextId + 1
                rw [← hride_id]
                exact Nat.lt_succ_of_lt (h.rideIdLt ride hride_mem)
            · intro b hb
              rcases List.mem_append.1 hb with hb' | hb'
              · exact h.bookingSeatsPos b hb'
              · rw [List.mem_singleton.1 hb']
                exact not_lt.1 hn
            · intro y hy
              rcases mem_map_replace Ride.id s.rides rid _ y hy with ⟨rfl, -⟩ | ⟨hm, -⟩
              · rw [derivedRide_availableSeats]
                exact sub_nonneg.2 (not_lt.1 hcap)
              · exact h.seatsLower y hm
            · intro y hy
              rcases mem_map_replace Ride.id s.rides rid _ y hy with ⟨rfl, -⟩ | ⟨hm, -⟩
              · rw [derivedRide_availableSeats, derivedRide_totalSeats]
                have h1 := h.seatsUpper ride hride_mem
                have h2 : 1 ≤ n := not_lt.1 hn
                linarith
              · exact h.seatsUpper y hm
            · intro y hy
              rcases mem_map_replace Ride.id s.rides rid _ y hy with ⟨rfl, -⟩ | ⟨hm, hyne⟩
              · rw [derivedRide_availableSeats, derivedRide_totalSeats, hRid,
                  bookedSeats_append, bookedSeats_singleton, if_pos ⟨rfl, rfl⟩]
                have heq := h.seatsEq ride hride_mem
                rw [hride_id] at heq
                show ride.totalSeats - (ride.availableSeats - n)
                  = bookedSeats s.bookings rid + n
                linarith
              · rw [bookedSeats_append, bookedSeats_singleton, if_neg]
                · rw [add_zero]
                  exact h.seatsEq y hm
                · intro hc
                  exact hyne (hc.1.symm)

lemma StoreInv_deleteBookings (s : MemStorage) (u bid : Nat)
    (h : StoreInv s) : StoreInv (deleteBookings s u bid).2 := by
  unfold deleteBookings
  cases hfind : s.getBooking bid with
  | none => exact h
  | some b =>
    by_cases hu : b.userId ≠ u
    · simpa only [if_pos hu] using h
    · simp only [if_neg hu]
      by_cases hcS : b.status = BookingStatus.CANCELLED
      · simpa only [if_pos hcS] using h
      · simp only [if_neg hcS]
        have hb_mem : b ∈ s.bookings := List.mem_of_find?_eq_some hfind
        have hb_id : b.id = bid := by simpa using List.find?_some hfind
        have hb_booked : b.status = BookingStatus.BOOKED := by
          cases hbs : b.status
          · rfl
          · exact absurd hbs hcS
        have hseats1 : 1 ≤ b.seatsBooked := h.bookingSeatsPos b hb_mem
        simp only [MemStorage.cancelBooking, hfind,
          setKeyed_of_mem Booking.id s.bookings bid _ b hb_mem hb_id]
        have hgetR : ∀ (bk : List Booking) (nw : Nat),
            (MemStorage.mk s.users s.rides bk s.nextId nw).getRide b.rideId
              = s.getRide b.rideId := fun _ _ => rfl
        rw [hgetR]
        have hBdist : keyedDistinct Booking.id (s.bookings.map fun x =>
            if x.id == bid then
              { b with status := BookingStatus.CANCELLED, cancelledAt := some s.now }
            else x) :=
          keyedDistinct_map_replace Booking.id s.bookings bid _ hb_id h.bookingsDistinct
        have hBmem : ∀ y ∈ (s.bookings.map fun x =>
            if x.id == bid then
              { b with status := BookingStatus.CANCELLED, cancelledAt := some s.now }
            else x),
            y.id < s.nextId ∧ y.rideId < s.nextId ∧ 1 ≤ y.seatsBooked := by
          intro y hy
          rcases mem_map_replace Booking.id s.bookings bid _ y hy with ⟨rfl, -⟩ | ⟨hm, -⟩
          · exact ⟨hb_id ▸ h.bookingIdLt b hb_mem, h.bookingRideIdLt b hb_mem, hseats1⟩
          · exact ⟨h.bookingIdLt y hm, h.bookingRideIdLt y hm, h.bookingSeatsPos y hm⟩
        have hBsum : ∀ rid : Nat, bookedSeats (s.bookings.map fun x =>
            if x.id == bid then
              { b with status := BookingStatus.CANCELLED, cancelledAt := some s.now }
            else x) rid
              = bookedSeats s.bookings rid - (if b.rideId = rid then b.seatsBooked else 0) :=
          bookedSeats_replace_cancel s.bookings bid _ b h.bookingsDistinct hb_mem hb_id
            hb_booked rfl
        cases hfind2 : s.getRide b.rideId with
        | none =>
          dsimp only
          have hnoride : ∀ r ∈ s.rides, r.id ≠ b.rideId := by
            intro r hr hc
            have := List.find?_eq_none.1 hfind2 r hr
            simp [hc] at this
          refine ⟨h.ridesDistinct, hBdist, h.rideIdLt,
            fun y hy => (hBmem y hy).1, fun y hy => (hBmem y hy).2.1,
            fun y hy => (hBmem y hy).2.2, h.seatsLower, h.seatsUpper, ?_⟩
          intro r hr
          rw [hBsum r.id, if_neg fun hc => hnoride r hr hc.symm, sub_zero]
          exact h.seatsEq r hr
        | some ride =>
          dsimp only
          have hride_mem : ride ∈ s.rides := List.mem_of_find?_eq_some hfind2
          have hride_id : ride.id = b.rideId := by simpa using List.find?_some hfind2
          have hfind2' : ∀ (bk : List Booking) (nw : Nat),
              (MemStorage.mk s.users s.rides bk s.nextId nw).getRide b.rideId
                = some ride := fun _ _ => hfind2
          rw [updateRide_seatPatch _ b.rideId (ride.availableSeats + b.seatsBooked) ride
            (hfind2' _ _)]
          simp only
          rw [setKeyed_of_mem Ride.id s.rides b.rideId
            (derivedRide ride (ride.availableSeats + b.seatsBooked)) ride hride_mem hride_id]
          have hRid : (derivedRide ride (ride.availableSeats + b.seatsBooked)).id
              = b.rideId := by
            rw [derivedRide_id, hride_id]
          have hsle : b.seatsBooked ≤ bookedSeats s.bookings b.rideId :=
            seatsBooked_le_bookedSeats s.bookings b.rideId b hb_mem hb_booked rfl
              h.bookingSeatsPos
          have heq := h.seatsEq ride hride_mem
          rw [hride_id] at heq
          refine ⟨?_, hBdist, ?_, fun y hy => (hBmem y hy).1,
            fun y hy => (hBmem y hy).2.1, fun y hy => (hBmem y hy).2.2, ?_, ?_, ?_⟩
          · exact keyedDistinct_map_replace Ride.id s.rides b.rideId _ hRid h.ridesDistinct
          · intro y hy
            rcases mem_map_replace Ride.id s.rides b.rideId _ y hy with ⟨rfl, -⟩ | ⟨hm, -⟩
            · rw [hRid, ← hride_id]
              exact h.rideIdLt ride hride_mem
            · exact h.rideIdLt y hm
          · intro y hy
            rcases mem_map_replace Ride.id s.rides b.rideId _ y hy with ⟨rfl, -⟩ | ⟨hm, -⟩
            · rw [derivedRide_availableSeats]
              have := h.seatsLower ride hride_mem
              linarith
            · exact h.seatsLower y hm
          · intro y hy
            rcases mem_map_replace Ride.id s.rides b.rideId _ y hy with ⟨rfl, -⟩ | ⟨hm, -⟩
            · rw [derivedRide_availableSeats, derivedRide_totalSeats]
              linarith
            · exact h.seatsUpper y hm
          · intro y hy
            rcases mem_map_replace Ride.id s.rides b.rideId _ y hy with ⟨rfl, -⟩ | ⟨hm, hyne⟩
            · rw [derivedRide_availableSeats, derivedRide_totalSeats, hRid,
                hBsum b.rideId, if_pos rfl]
              linarith
            · rw [hBsum y.id, if_neg fun hc => hyne hc.symm, sub_zero]
              exact h.seatsEq y hm

lemma StoreInv_step (s : MemStorage) (op : Op) (h : StoreInv s)
    (hop : seatSafe op) : StoreInv (step s op) := by
  cases op with
  | createRide u i => exact StoreInv_postRides s u i h
  | updateRide u r p => exact StoreInv_patchRides s u r p hop h
  | deleteRide u r => exact StoreInv_deleteRides s u r h
  | createBooking u r n => exact StoreInv_postBookings s u r n h
  | cancelBooking u b => exact StoreInv_deleteBookings s u b h

lemma StoreInv_run (s : MemStorage) (ops : List Op) (h : StoreInv s)
    (hops : ∀ op ∈ ops, seatSafe op) : StoreInv (run s ops) := by
  induction ops generalizing s with
  | nil => exact h
  | cons op rest ih =>
    exact ih (step s op)
      (StoreInv_step s op h (hops op (List.mem_cons_self _ _)))
      (fun o ho => hops o (List.mem_cons_of_mem _ ho))

lemma StoreInv_initStorage : StoreInv initStorage := by
  refine ⟨?_, ?_, ?_, ?_, ?_, ?_, ?_, ?_, ?_⟩ <;>
    simp [initStorage, keyedDistinct]

/-! ### Demo inputs and projection helpers for concrete statements -/

/-- A valid ride input with 2 seats at price 100. -/
def demoInput2 : InsertRide :=
  { fromCity := "AB", toCity := "CD", date := "2025-01-01", time := "10:00",
    vehicleType := VehicleType.car, availableSeats := 2, pricePerHead := 100,
    whatsappLink := "wa", additionalMsg := "" }

/-- A valid ride input with a single seat. -/
def demoInput1 : InsertRide :=
  { demoInput2 with availableSeats := 1 }

/-- The status of the ride stored at `rid`, if any. -/
def rideStatusAt (s : MemStorage) (rid : Nat) : Option RideStatus :=
  (s.getRide rid).map Ride.status

/-- The `availableSeats` of the ride stored at `rid`, if any. -/
def availableSeatsAt (s : MemStorage) (rid : Nat) : Option Int :=
  (s.getRide rid).map Ride.availableSeats

/-! ### Claim theorems -/

/-- C1 (amended): the core consistency invariant — for every existing ride,
`totalSeats - availableSeats` equals the sum of `seatsBooked` over its
currently-BOOKED bookings, and `availableSeats` is never negative — holds in
every state reachable by CreateRide, CreateBooking, CancelBooking, DeleteRide
and those UpdateRide calls whose patch does not write `availableSeats` or
`totalSeats`. (The claim as stated, over arbitrary UpdateRide patches, fails:
the PATCH body is stored unvalidated, see the counterexample.) -/
theorem seatConsistency_under_seatSafe_ops (ops : List Op)
    (hops : ∀ op ∈ ops, seatSafe op) :
    ∀ r ∈ (run initStorage ops).rides,
      r.totalSeats - r.availableSeats
          = bookedSeats (run initStorage ops).bookings r.id ∧
        0 ≤ r.availableSeats := by
  have h := StoreInv_run initStorage ops StoreInv_initStorage hops
  exact fun r hr => ⟨h.seatsEq r hr, h.seatsLower r hr⟩

/-- Witness for `seatConsistency_under_seatSafe_ops` on a concrete trace:
create a ride, book a seat, cancel the booking. -/
theorem seatConsistency_under_seatSafe_ops_witness :
    (∀ op ∈ [Op.createRide 0 demoInput2, Op.createBooking 1 0 1,
        Op.cancelBooking 1 1], seatSafe op) ∧
    ∀ r ∈ (run initStorage [Op.createRide 0 demoInput2, Op.createBooking 1 0 1,
        Op.cancelBooking 1 1]).rides,
      r.totalSeats - r.availableSeats
          = bookedSeats (run initStorage [Op.createRide 0 demoInput2,
              Op.createBooking 1 0 1, Op.cancelBooking 1 1]).bookings r.id ∧
        0 ≤ r.availableSeats :=
  ⟨by decide, seatConsistency_under_seatSafe_ops _ (by decide)⟩

/-- C1 counterexample: one `UpdateRide` whose (unvalidated) body writes
`availableSeats := 5` on a 2-seat ride reaches a state where
`totalSeats - availableSeats` (= -3) differs from the BOOKED sum (= 0), so
the invariant does not hold under every sequence of the five operations. -/
theorem seatConsistency_breaks_under_seat_patch :
    ¬ ∀ r ∈ (run initStorage
        [Op.createRide 0 demoInput2, Op.updateRide 0 0 (seatPatch 5)]).rides,
      r.totalSeats - r.availableSeats
        = bookedSeats (run initStorage
            [Op.createRide 0 demoInput2, Op.updateRide 0 0 (seatPatch 5)]).bookings r.id := by
  decide

/-- C2 (amended): the seat bounds `0 ≤ availableSeats ≤ totalSeats` hold in
every state reachable by CreateRide, CreateBooking, CancelBooking, DeleteRide
and UpdateRide calls whose patch does not write the seat counters. An
UpdateRide with an arbitrary patch does NOT preserve the bounds (see the
counterexample), because the PATCH handler stores `req.body` unvalidated. -/
theorem seatBounds_under_seatSafe_ops (ops : List Op)
    (hops : ∀ op ∈ ops, seatSafe op) :
    ∀ r ∈ (run initStorage ops).rides,
      0 ≤ r.availableSeats ∧ r.availableSeats ≤ r.totalSeats := by
  have h := StoreInv_run initStorage ops StoreInv_initStorage hops
  exact fun r hr => ⟨h.seatsLower r hr, h.seatsUpper r hr⟩

/-- Witness for `seatBounds_under_seatSafeops` on the trace: create a
1-seat ride, book it (seats reach 0), cancel (seats return to 1). -/
theorem seatBounds_under_seatSafe_ops_witness :
    (∀ op ∈ [Op.createRide 0 demoInput1, Op.createBooking 1 0 1,
        Op.cancelBooking 1 1], seatSafe op) ∧
    ∀ r ∈ (run initStorage [Op.createRide 0 demoInput1, Op.createBooking 1 0 1,
        Op.cancelBooking 1 1]).rides,
      0 ≤ r.availableSeats ∧ r.availableSeats ≤ r.totalSeats :=
  ⟨by decide, seatBounds_under_seatSafe_ops _ (by decide)⟩

/-- C2 counterexample: an `UpdateRide` whose body sets `availableSeats := -1`
is accepted and leaves a ride violating `0 ≤ availableSeats ≤ totalSeats`,
so not every public operation preserves I1. -/
theorem seatBounds_break_under_seat_patch :
    ¬ ∀ r ∈ (run initStorage
        [Op.createRide 0 demoInput2, Op.updateRide 0 0 (seatPatch (-1))]).rides,
      0 ≤ r.availableSeats ∧ r.availableSeats ≤ r.totalSeats := by
  decide

/-- A ride record as stored by `createRide demoInput2` (used by witnesses). -/
def demoRide : Ride :=
  { id := 0, creatorId := 0, fromCity := "AB", toCity := "CD",
    date := "2025-01-01", time := "10:00", vehicleType := VehicleType.car,
    availableSeats := 2, totalSeats := 2, pricePerHead := 100,
    whatsappLink := "wa", additionalMsg := "", status := RideStatus.OPEN,
    createdAt := 0 }

/-- A storage state holding just `demoRide` (used by witnesses). -/
def demoState : MemStorage :=
  { users := [], rides := [demoRide], bookings := [], nextId := 1, now := 1 }

/-- C3 (corrected): in the booking handler the capacity check
(`availableSeats < seatsBooked`) comes BEFORE the status check, and the
status check rejects only `FULL`: for a valid CreateBooking against an
existing ride whose creator is not the caller, (a) insufficient capacity
fails `InsufficientCapacity` regardless of status; (b) with sufficient
capacity a FULL ride fails `InvalidOperation`; (c) with sufficient capacity
any non-FULL status — including CANCELLED, i.e. not only OPEN — is accepted. -/
theorem postBookings_capacity_before_status (s : MemStorage) (u rid : Nat)
    (n : Int) (ride : Ride) (hn : 1 ≤ n) (hride : s.getRide rid = some ride)
    (hcr : ride.creatorId ≠ u) :
    (ride.availableSeats < n →
      (postBookings s u rid n).1 = Except.error ApiError.InsufficientCapacity) ∧
    (n ≤ ride.availableSeats → ride.status = RideStatus.FULL →
      (postBookings s u rid n).1 = Except.error ApiError.InvalidOperation) ∧
    (n ≤ ride.availableSeats → ride.status ≠ RideStatus.FULL →
      (postBookings s u rid n).1 = Except.ok
        { id := s.nextId, rideId := rid, userId := u, seatsBooked := n,
          status := BookingStatus.BOOKED, totalPrice := n * ride.pricePerHead,
          bookedAt := s.now, cancelledAt := none }) := by
  unfold postBookings
  rw [if_neg (not_lt.2 hn)]
  simp only [hride]
  refine ⟨?_, ?_, ?_⟩
  · intro hcap
    rw [if_neg hcr, if_pos hcap]
  · intro hcap hfull
    rw [if_neg hcr, if_neg (not_lt.2 hcap), if_pos hfull]
  · intro hcap hnf
    rw [if_neg hcr, if_neg (not_lt.2 hcap), if_neg hnf]
    rfl

/-- Witness for `postBookings_capacity_before_status` at a concrete state:
a 2-seat OPEN ride booked by a non-creator; the non-FULL branch accepts. -/
theorem postBookings_capacity_before_status_witness :
    (1 ≤ (1:Int)) ∧ demoState.getRide 0 = some demoRide ∧
    demoRide.creatorId ≠ 1 ∧ 1 ≤ demoRide.availableSeats ∧
    demoRide.status ≠ RideStatus.FULL ∧
    (postBookings demoState 1 0 1).1 = Except.ok
      { id := 1, rideId := 0, userId := 1, seatsBooked := 1,
        status := BookingStatus.BOOKED, totalPrice := 100,
        bookedAt := 1, cancelledAt := none } :=
  ⟨by decide, by decide, by decide, by decide, by decide,
    (postBookings_capacity_before_status demoState 1 0 1 demoRide
      (by decide) (by decide) (by decide)).2.2 (by decide) (by decide)⟩

deriving instance DecidableEq for Except

/-- C3 counterexample: (i) on a seat-exhausted FULL ride, a booking attempt
is answered with `InsufficientCapacity`, not `InvalidOperation`, because the
capacity check runs first; (ii) a ride whose status was set to CANCELLED
(a non-OPEN status other than FULL) still accepts a booking. Both refute the
claim that any non-OPEN status is rejected with `InvalidOperation` before
the capacity check. -/
theorem postBookings_status_order_cex :
    rideStatusAt (run initStorage
        [Op.createRide 0 demoInput1, Op.createBooking 1 0 1]) 0
      = some RideStatus.FULL ∧
    (postBookings (run initStorage
        [Op.createRide 0 demoInput1, Op.createBooking 1 0 1]) 2 0 1).1
      = Except.error ApiError.InsufficientCapacity ∧
    rideStatusAt (run initStorage
        [Op.createRide 0 demoInput2,
         Op.updateRide 0 0 (statusPatch RideStatus.CANCELLED)]) 0
      = some RideStatus.CANCELLED ∧
    (postBookings (run initStorage
        [Op.createRide 0 demoInput2,
         Op.updateRide 0 0 (statusPatch RideStatus.CANCELLED)]) 1 0 1).1.isOk
      = true := by
  decide

/-- C4 (evaluation at the failing input): `updateRide`'s auto-derivation
tests only the current status value (`ride.status === "FULL"`), not how FULL
arose, although its own comment says it reopens "only if it was automatically
closed due to seats". Trace: a 2-seat ride is booked once (1 seat left),
the creator then manually sets status FULL while a seat remains; the later
cancellation's seat restoration reverts the manually-set FULL to OPEN. -/
theorem manual_full_reverted_to_open :
    rideStatusAt (run initStorage
        [Op.createRide 0 demoInput2, Op.createBooking 1 0 1,
         Op.updateRide 0 0 (statusPatch RideStatus.FULL)]) 0
      = some RideStatus.FULL ∧
    availableSeatsAt (run initStorage
        [Op.createRide 0 demoInput2, Op.createBooking 1 0 1,
         Op.updateRide 0 0 (statusPatch RideStatus.FULL)]) 0
      = some 1 ∧
    rideStatusAt (run initStorage
        [Op.createRide 0 demoInput2, Op.createBooking 1 0 1,
         Op.updateRide 0 0 (statusPatch RideStatus.FULL),
         Op.cancelBooking 1 1]) 0
      = some RideStatus.OPEN := by
  decide

/-- C5 (amended): a single deriveStatus seat-count update applied while the
ride's status is CANCELLED never yields OPEN — the status stays CANCELLED,
or is overwritten to FULL when the new seat count is ≤ 0. (The unrestricted
claim over a whole operation sequence fails, because CANCELLED does not block
bookings: see the counterexample, where a booking drives the seat count to 0,
overwriting CANCELLED with FULL, and the later restoration then sets OPEN.) -/
theorem updateRide_on_cancelled_never_open (s : MemStorage) (rid : Nat)
    (v : Int) (ride R : Ride) (hfind : s.getRide rid = some ride)
    (hst : ride.status = RideStatus.CANCELLED)
    (hres : (s.updateRide rid (seatPatch v) true).1 = some R) :
    R.status ≠ RideStatus.OPEN := by
  rw [updateRide_seatPatch s rid v ride hfind] at hres
  have hR : derivedRide ride v = R := by
    injection hres
  rw [← hR, derivedRide_status, hst]
  by_cases h1 : v ≤ 0
  · rw [if_pos h1]
    exact fun hc => RideStatus.noConfusion hc
  · rw [if_neg h1, if_neg (fun hc => RideStatus.noConfusion hc)]
    exact fun hc => RideStatus.noConfusion hc

/-- Witness for `updateRide_on_cancelled_never_open`: restoring a seat on a
CANCELLED demo ride leaves the status CANCELLED, not OPEN. -/
theorem updateRide_on_cancelled_never_open_witness :
    ({ demoState with
        rides := [{ demoRide with status := RideStatus.CANCELLED }] } : MemStorage).getRide 0
        = some { demoRide with status := RideStatus.CANCELLED } ∧
    ({ demoRide with status := RideStatus.CANCELLED } : Ride).status
        = RideStatus.CANCELLED ∧
    (({ demoState with
        rides := [{ demoRide with status := RideStatus.CANCELLED }] } : MemStorage).updateRide
          0 (seatPatch 3) true).1
        = some (derivedRide { demoRide with status := RideStatus.CANCELLED } 3) ∧
    (derivedRide { demoRide with status := RideStatus.CANCELLED } 3).status
        ≠ RideStatus.OPEN :=
  ⟨by decide, by decide, by decide,
    updateRide_on_cancelled_never_open
      { demoState with rides := [{ demoRide with status := RideStatus.CANCELLED }] }
      0 3 { demoRide with status := RideStatus.CANCELLED }
      (derivedRide { demoRide with status := RideStatus.CANCELLED } 3)
      (by decide) (by decide) (by decide)⟩

/-- C5 counterexample: creator makes a 1-seat ride and sets its status to
CANCELLED; a booking is nevertheless accepted (status check only rejects
FULL) and exhausts the seats, overwriting the status to FULL; the booking's
later cancellation restores the seat and flips the status to OPEN — so a
ride whose status was explicitly set to CANCELLED ends OPEN after
seat-count changes only. -/
theorem cancelled_reverted_to_open_cex :
    rideStatusAt (run initStorage
        [Op.createRide 0 demoInput1,
         Op.updateRide 0 0 (statusPatch RideStatus.CANCELLED)]) 0
      = some RideStatus.CANCELLED ∧
    rideStatusAt (run initStorage
        [Op.createRide 0 demoInput1,
         Op.updateRide 0 0 (statusPatch RideStatus.CANCELLED),
         Op.createBooking 1 0 1]) 0
      = some RideStatus.FULL ∧
    rideStatusAt (run initStorage
        [Op.createRide 0 demoInput1,
         Op.updateRide 0 0 (statusPatch RideStatus.CANCELLED),
         Op.createBooking 1 0 1, Op.cancelBooking 1 1]) 0
      = some RideStatus.OPEN := by
  decide

lemma deleteBookings_of_cancelled (s : MemStorage) (u bid : Nat) (cb : Booking)
    (hfind : s.getBooking bid = some cb) (hu : cb.userId = u)
    (hcanc : cb.status = BookingStatus.CANCELLED) :
    deleteBookings s u bid = (Except.error ApiError.InvalidOperation, s) := by
  unfold deleteBookings
  simp only [hfind]
  rw [if_neg (fun hc => hc hu), if_pos hcanc]

/-- C6: for a BOOKED booking and its still-existing ride, the owner's first
CancelBooking succeeds and returns the booking with status CANCELLED and
`cancelledAt` stamped; a second CancelBooking on the resulting state fails
with `InvalidOperation` and leaves the state untouched; and across the two
calls the ride's `availableSeats` is incremented by the booking's
`seatsBooked` exactly once. -/
theorem cancelBooking_succeeds_once (s : MemStorage) (u bid : Nat) (b : Booking)
    (ride : Ride) (hfind : s.getBooking bid = some b) (howner : b.userId = u)
    (hstat : b.status = BookingStatus.BOOKED)
    (hride : s.getRide b.rideId = some ride) :
    (deleteBookings s u bid).1
        = Except.ok { b with status := BookingStatus.CANCELLED,
                             cancelledAt := some s.now } ∧
    (deleteBookings (deleteBookings s u bid).2 u bid).1
        = Except.error ApiError.InvalidOperation ∧
    (deleteBookings (deleteBookings s u bid).2 u bid).2
        = (deleteBookings s u bid).2 ∧
    availableSeatsAt (deleteBookings s u bid).2 b.rideId
        = some (ride.availableSeats + b.seatsBooked) := by
  have hb_id : b.id = bid := by simpa using List.find?_some hfind
  have hride_id : ride.id = b.rideId := by simpa using List.find?_some hride
  have hnotu : ¬ b.userId ≠ u := fun hc => hc howner
  have hnotc : ¬ b.status = BookingStatus.CANCELLED := by
    rw [hstat]
    exact fun hc => BookingStatus.noConfusion hc
  have hride2 : ∀ (bk : List Booking) (nw : Nat),
      (MemStorage.mk s.users s.rides bk s.nextId nw).getRide b.rideId = some ride :=
    fun _ _ => hride
  have hcall : deleteBookings s u bid
      = (Except.ok { b with status := BookingStatus.CANCELLED,
                            cancelledAt := some s.now },
         MemStorage.mk s.users
           (setKeyed Ride.id s.rides b.rideId
             (derivedRide ride (ride.availableSeats + b.seatsBooked)))
           (setKeyed Booking.id s.bookings bid
             { b with status := BookingStatus.CANCELLED, cancelledAt := some s.now })
           s.nextId (s.now + 1)) := by
    unfold deleteBookings
    simp only [hfind]
    rw [if_neg hnotu, if_neg hnotc]
    simp only [MemStorage.cancelBooking, hfind]
    rw [hride2]
    dsimp only
    rw [updateRide_seatPatch _ b.rideId (ride.availableSeats + b.seatsBooked) ride
      (hride2 _ _)]
    rfl
  have hget2 : (deleteBookings s u bid).2.getBooking bid
      = some { b with status := BookingStatus.CANCELLED, cancelledAt := some s.now } := by
    rw [hcall]
    exact find?_setKeyed_self Booking.id s.bookings bid _ hb_id
  have hsecond : deleteBookings (deleteBookings s u bid).2 u bid
      = (Except.error ApiError.InvalidOperation, (deleteBookings s u bid).2) :=
    deleteBookings_of_cancelled _ u bid _ hget2 howner rfl
  refine ⟨by rw [hcall], by rw [hsecond], by rw [hsecond], ?_⟩
  have hgetR : (deleteBookings s u bid).2.getRide b.rideId
      = some (derivedRide ride (ride.availableSeats + b.seatsBooked)) := by
    rw [hcall]
    exact find?_setKeyed_self Ride.id s.rides b.rideId _
      (by rw [derivedRide_id]; exact hride_id)
  rw [availableSeatsAt, hgetR]
  simp [derivedRide_availableSeats]

/-- The state after creating `demoRide` and booking one seat as user 1. -/
def demoAfterBooking : MemStorage :=
  run initStorage [Op.createRide 0 demoInput2, Op.createBooking 1 0 1]

/-- The booking record created in `demoAfterBooking`. -/
def demoBooking : Booking :=
  { id := 1, rideId := 0, userId := 1, seatsBooked := 1,
    status := BookingStatus.BOOKED, totalPrice := 100, bookedAt := 1,
    cancelledAt := none }

/-- Witness for `cancelBooking_succeeds_once` on the concrete state
`demoAfterBooking`. -/
theorem cancelBooking_succeeds_once_witness :
    demoAfterBooking.getBooking 1 = some demoBooking ∧
    demoBooking.userId = 1 ∧
    demoBooking.status = BookingStatus.BOOKED ∧
    demoAfterBooking.getRide demoBooking.rideId
        = some { demoRide with availableSeats := 1 } ∧
    ((deleteBookings demoAfterBooking 1 1).1
        = Except.ok { demoBooking with
            status := BookingStatus.CANCELLED,
            cancelledAt := some demoAfterBooking.now } ∧
     (deleteBookings (deleteBookings demoAfterBooking 1 1).2 1 1).1
        = Except.error ApiError.InvalidOperation ∧
     (deleteBookings (deleteBookings demoAfterBooking 1 1).2 1 1).2
        = (deleteBookings demoAfterBooking 1 1).2 ∧
     availableSeatsAt (deleteBookings demoAfterBooking 1 1).2 demoBooking.rideId
        = some (({ demoRide with availableSeats := 1 } : Ride).availableSeats
            + demoBooking.seatsBooked)) :=
  ⟨by decide, by decide, by decide, by decide,
    cancelBooking_succeeds_once demoAfterBooking 1 1 demoBooking
      { demoRide with availableSeats := 1 }
      (by decide) (by decide) (by decide) (by decide)⟩

/-- C7: price snapshot — a successful CreateBooking returns a booking whose
`totalPrice` is `seatsBooked` times the ride's `pricePerHead` as read at
booking time, and an UpdateRide (any caller, ride and patch — in particular
one changing `pricePerHead`) never modifies the bookings store, so existing
bookings' `totalPrice` is untouched. -/
theorem booking_price_snapshot (s : MemStorage) (u rid : Nat) (n : Int)
    (ride : Ride) (b : Booking) (s2 : MemStorage) (u2 rid2 : Nat) (p : RidePatch)
    (hride : s.getRide rid = some ride)
    (hok : (postBookings s u rid n).1 = Except.ok b) :
    b.totalPrice = n * ride.pricePerHead ∧
    (patchRides s2 u2 rid2 p).2.bookings = s2.bookings := by
  constructor
  · unfold postBookings at hok
    by_cases hn : n < 1
    · rw [if_pos hn] at hok
      exact absurd hok (by simp)
    · rw [if_neg hn] at hok
      simp only [hride] at hok
      by_cases hcr : ride.creatorId = u
      · rw [if_pos hcr] at hok
        exact absurd hok (by simp)
      · rw [if_neg hcr] at hok
        by_cases hcap : ride.availableSeats < n
        · rw [if_pos hcap] at hok
          exact absurd hok (by simp)
        · rw [if_neg hcap] at hok
          by_cases hst : ride.status = RideStatus.FULL
          · rw [if_pos hst] at hok
            exact absurd hok (by simp)
          · rw [if_neg hst] at hok
            simp only [MemStorage.createBooking] at hok
            rw [Except.ok.injEq] at hok
            rw [← hok]
  · unfold patchRides
    cases hf : s2.getRide rid2 with
    | none => rfl
    | some r2 =>
      dsimp only
      by_cases hc : r2.creatorId ≠ u2
      · rw [if_pos hc]
      · rw [if_neg hc, updateRide_eq s2 rid2 p false r2 hf]

/-- The patch a creator would send to change the price to 50. -/
def demoPricePatch : RidePatch :=
  { fromCity := none, toCity := none, availableSeats := none,
    totalSeats := none, pricePerHead := some 50, status := none }

/-- Witness for `booking_price_snapshot`: book 2 seats at price 100
(totalPrice 200), then change the ride's price to 50; the bookings store is
unchanged. -/
theorem booking_price_snapshot_witness :
    demoState.getRide 0 = some demoRide ∧
    (postBookings demoState 1 0 2).1 = Except.ok
      { id := 1, rideId := 0, userId := 1, seatsBooked := 2,
        status := BookingStatus.BOOKED, totalPrice := 200, bookedAt := 1,
        cancelledAt := none } ∧
    (({ id := 1, rideId := 0, userId := 1, seatsBooked := 2,
        status := BookingStatus.BOOKED, totalPrice := 200, bookedAt := 1,
        cancelledAt := none } : Booking).totalPrice = 2 * demoRide.pricePerHead ∧
     (patchRides (postBookings demoState 1 0 2).2 0 0 demoPricePatch).2.bookings
        = (postBookings demoState 1 0 2).2.bookings) :=
  ⟨by decide, by decide,
    booking_price_snapshot demoState 1 0 2 demoRide
      { id := 1, rideId := 0, userId := 1, seatsBooked := 2,
        status := BookingStatus.BOOKED, totalPrice := 200, bookedAt := 1,
        cancelledAt := none }
      (postBookings demoState 1 0 2).2 0 0 demoPricePatch
      (by decide) (by decide)⟩

/-- C8: CancelBooking by the owner of a BOOKED booking whose ride no longer
exists still succeeds: the booking is returned and stored CANCELLED with
`cancelledAt` stamped, no error is raised, and the rides store is untouched
(seat restoration is skipped). -/
theorem cancelBooking_tolerates_missing_ride (s : MemStorage) (u bid : Nat)
    (b : Booking) (hfind : s.getBooking bid = some b) (howner : b.userId = u)
    (hstat : b.status = BookingStatus.BOOKED)
    (hride : s.getRide b.rideId = none) :
    (deleteBookings s u bid).1
        = Except.ok { b with
            status := BookingStatus.CANCELLED,
            cancelledAt := some s.now } ∧
    (deleteBookings s u bid).2.getBooking bid
        = some { b with
            status := BookingStatus.CANCELLED,
            cancelledAt := some s.now } ∧
    (deleteBookings s u bid).2.rides = s.rides := by
  have hb_id : b.id = bid := by simpa using List.find?_some hfind
  have hnotu : ¬ b.userId ≠ u := fun hc => hc howner
  have hnotc : ¬ b.status = BookingStatus.CANCELLED := by
    rw [hstat]
    exact fun hc => BookingStatus.noConfusion hc
  have hride2 : ∀ (bk : List Booking) (nw : Nat),
      (MemStorage.mk s.users s.rides bk s.nextId nw).getRide b.rideId = none :=
    fun _ _ => hride
  have hcall : deleteBookings s u bid
      = (Except.ok { b with
            status := BookingStatus.CANCELLED,
            cancelledAt := some s.now },
         MemStorage.mk s.users s.rides
           (setKeyed Booking.id s.bookings bid
             { b with
               status := BookingStatus.CANCELLED,
               cancelledAt := some s.now })
           s.nextId (s.now + 1)) := by
    unfold deleteBookings
    simp only [hfind]
    rw [if_neg hnotu, if_neg hnotc]
    simp only [MemStorage.cancelBooking, hfind]
    rw [hride2]
    rfl
  refine ⟨by rw [hcall], ?_, by rw [hcall]⟩
  rw [hcall]
  exact find?_setKeyed_self Booking.id s.bookings bid _ hb_id

/-- The state of `demoAfterBooking` after the creator hard-deletes the ride:
the booking dangles. -/
def demoMissingRide : MemStorage :=
  run initStorage [Op.createRide 0 demoInput2, Op.createBooking 1 0 1,
    Op.deleteRide 0 0]

/-- Witness for `cancelBooking_tolerates_missing_ride` on a concrete state
whose ride has been deleted. -/
theorem cancelBooking_tolerates_missing_ride_witness :
    demoMissingRide.getBooking 1 = some demoBooking ∧
    demoBooking.userId = 1 ∧
    demoBooking.status = BookingStatus.BOOKED ∧
    demoMissingRide.getRide demoBooking.rideId = none ∧
    ((deleteBookings demoMissingRide 1 1).1
        = Except.ok { demoBooking with
            status := BookingStatus.CANCELLED,
            cancelledAt := some demoMissingRide.now } ∧
     (deleteBookings demoMissingRide 1 1).2.getBooking 1
        = some { demoBooking with
            status := BookingStatus.CANCELLED,
            cancelledAt := some demoMissingRide.now } ∧
     (deleteBookings demoMissingRide 1 1).2.rides = demoMissingRide.rides) :=
  ⟨by decide, by decide, by decide, by decide,
    cancelBooking_tolerates_missing_ride demoMissingRide 1 1 demoBooking
      (by decide) (by decide) (by decide) (by decide)⟩

/-- C9: an accepted CreateRide stores a ride whose `availableSeats` equals
its `totalSeats` (both copied from the validated input's seat count — the
payload carries a single seat field) with status OPEN; an input whose seat
count is below 1 or whose price is negative is rejected as `InvalidInput` by
the schema validation. -/
theorem createRide_postcondition (s : MemStorage) (u : Nat) (i : InsertRide) :
    (insertRideValid i →
      (postRides s u i).1 = Except.ok
        { id := s.nextId, creatorId := u, fromCity := i.fromCity,
          toCity := i.toCity, date := i.date, time := i.time,
          vehicleType := i.vehicleType, availableSeats := i.availableSeats,
          totalSeats := i.availableSeats, pricePerHead := i.pricePerHead,
          whatsappLink := i.whatsappLink, additionalMsg := i.additionalMsg,
          status := RideStatus.OPEN, createdAt := s.now }) ∧
    ((i.availableSeats < 1 ∨ i.pricePerHead < 0) →
      (postRides s u i).1 = Except.error ApiError.InvalidInput) := by
  constructor
  · intro hv
    unfold postRides
    rw [if_pos hv]
    rfl
  · intro hbad
    have hnv : ¬ insertRideValid i := by
      intro hv
      rcases hbad with hb | hb
      · exact absurd hv.2.2.2.2.1 (not_le.2 hb)
      · exact absurd hv.2.2.2.2.2.1 (not_le.2 hb)
    unfold postRides
    rw [if_neg hnv]

/-- Witness for `createRide_postcondition`: `demoInput2` is valid and yields
exactly `demoRide`, whose seat counters agree and whose status is OPEN. -/
theorem createRide_postcondition_witness :
    insertRideValid demoInput2 ∧
    (postRides initStorage 0 demoInput2).1 = Except.ok demoRide :=
  ⟨by decide, (createRide_postcondition initStorage 0 demoInput2).1 (by decide)⟩

/-- C10: cancellation's frame — the returned and stored booking keeps its
`id`, `rideId`, `userId`, `seatsBooked`, `totalPrice` and `bookedAt`
unchanged, only `status` (to CANCELLED) and `cancelledAt` (stamped) change;
the bookings store is the pointwise replacement at the booking's id, so
every other booking record is untouched. -/
theorem cancelBooking_frame (s : MemStorage) (u bid : Nat) (b : Booking)
    (hfind : s.getBooking bid = some b) (howner : b.userId = u)
    (hstat : b.status = BookingStatus.BOOKED) :
    (deleteBookings s u bid).1
        = Except.ok
            { id := b.id, rideId := b.rideId, userId := b.userId,
              seatsBooked := b.seatsBooked, status := BookingStatus.CANCELLED,
              totalPrice := b.totalPrice, bookedAt := b.bookedAt,
              cancelledAt := some s.now } ∧
    (deleteBookings s u bid).2.bookings
        = s.bookings.map (fun x => if x.id == bid then
            { id := b.id, rideId := b.rideId, userId := b.userId,
              seatsBooked := b.seatsBooked, status := BookingStatus.CANCELLED,
              totalPrice := b.totalPrice, bookedAt := b.bookedAt,
              cancelledAt := some s.now } else x) := by
  have hb_mem : b ∈ s.bookings := List.mem_of_find?_eq_some hfind
  have hb_id : b.id = bid := by simpa using List.find?_some hfind
  have hnotu : ¬ b.userId ≠ u := fun hc => hc howner
  have hnotc : ¬ b.status = BookingStatus.CANCELLED := by
    rw [hstat]
    exact fun hc => BookingStatus.noConfusion hc
  have hgetR : ∀ (bk : List Booking) (nw : Nat),
      (MemStorage.mk s.users s.rides bk s.nextId nw).getRide b.rideId
        = s.getRide b.rideId := fun _ _ => rfl
  unfold deleteBookings
  simp only [hfind]
  rw [if_neg hnotu, if_neg hnotc]
  simp only [MemStorage.cancelBooking, hfind,
    setKeyed_of_mem Booking.id s.bookings bid _ b hb_mem hb_id]
  rw [hgetR]
  cases hr : s.getRide b.rideId with
  | none => exact ⟨rfl, rfl⟩
  | some r2 =>
    dsimp only
    have hr2 : ∀ (bk : List Booking) (nw : Nat),
        (MemStorage.mk s.users s.rides bk s.nextId nw).getRide b.rideId = some r2 :=
      fun _ _ => hr
    rw [updateRide_seatPatch _ b.rideId (r2.availableSeats + b.seatsBooked) r2 (hr2 _ _)]
    exact ⟨rfl, rfl⟩

/-- Witness for `cancelBooking_frame` on the concrete state
`demoAfterBooking`. -/
theorem cancelBooking_frame_witness :
    demoAfterBooking.getBooking 1 = some demoBooking ∧
    demoBooking.userId = 1 ∧
    demoBooking.status = BookingStatus.BOOKED ∧
    ((deleteBookings demoAfterBooking 1 1).1
        = Except.ok
            { id := demoBooking.id, rideId := demoBooking.rideId,
              userId := demoBooking.userId, seatsBooked := demoBooking.seatsBooked,
              status := BookingStatus.CANCELLED, totalPrice := demoBooking.totalPrice,
              bookedAt := demoBooking.bookedAt,
              cancelledAt := some demoAfterBooking.now } ∧
     (deleteBookings demoAfterBooking 1 1).2.bookings
        = demoAfterBooking.bookings.map (fun x => if x.id == 1 then
            { id := demoBooking.id, rideId := demoBooking.rideId,
              userId := demoBooking.userId, seatsBooked := demoBooking.seatsBooked,
              status := BookingStatus.CANCELLED, totalPrice := demoBooking.totalPrice,
              bookedAt := demoBooking.bookedAt,
              cancelledAt := some demoAfterBooking.now } else x)) :=
  ⟨by decide, by decide, by decide,
    cancelBooking_frame demoAfterBooking 1 1 demoBooking
      (by decide) (by decide) (by decide)⟩
